import Mathlib

/-!
Shallow embedding of `salt-die/Tables` (`src/tables/table.py`) in Lean 4,
together with theorems settling the specification claims.

Cell values are modelled as `String` (every stored cell is text).  Python
list semantics (negative indices, clamping `insert`, `pop`, `list.index`)
are modelled explicitly.  Failures raise `PyErr` values mirroring the
Python exceptions the code can produce.
-/

set_option maxRecDepth 4000
set_option linter.unusedVariables false

deriving instance DecidableEq for Except

namespace Tables

/-- Python exceptions the embedded code can raise. -/
inductive PyErr where
  | valueError : String → PyErr
  | typeError : String → PyErr
  | indexError : PyErr
  | attributeError : PyErr
  | keyError : PyErr
  | lengthMismatch : PyErr
  deriving Repr, DecidableEq

/-- Normalisation of a Python index against a length: negative indices
count from the end. -/
def pyNorm (n : Nat) (i : Int) : Int := if i < 0 then i + n else i

/-- Python list index resolution: returns `none` (an `IndexError`) when the
normalised index is out of range. -/
def pyIdx (n : Nat) (i : Int) : Option Nat :=
  if 0 ≤ pyNorm n i ∧ pyNorm n i < n then some (pyNorm n i).toNat else none

/-- Python `l[i]` on a list. -/
def pyGet {α : Type} (l : List α) (i : Int) : Except PyErr α :=
  match pyIdx l.length i with
  | some n =>
    match l[n]? with
    | some a => .ok a
    | none => .error .indexError
  | none => .error .indexError

/-- Python `l[i] = x` on a list (returns the updated list). -/
def pySetList {α : Type} (l : List α) (i : Int) (x : α) : Except PyErr (List α) :=
  match pyIdx l.length i with
  | some n => .ok (l.set n x)
  | none => .error .indexError

/-- Python `l.insert(i, x)`: out-of-range positions clamp to the ends. -/
def pyInsert {α : Type} (l : List α) (i : Int) (x : α) : List α :=
  let n := l.length
  let j : Int := if i < 0 then i + n else i
  let p : Nat := if j < 0 then 0 else min j.toNat n
  l.take p ++ x :: l.drop p

/-- Python `l.pop(i)`: returns the removed element and the remaining list. -/
def pyPop {α : Type} (l : List α) (i : Int) : Except PyErr (α × List α) :=
  match pyIdx l.length i with
  | some n =>
    match l[n]? with
    | some a => .ok (a, l.eraseIdx n)
    | none => .error .indexError
  | none => .error .indexError

/-- Python `l.index(s)` on a list of strings: first position of `s`,
`ValueError` when absent. -/
def listIndex (l : List String) (s : String) : Except PyErr Nat :=
  match l.findIdx? (fun x => x = s) with
  | some n => .ok n
  | none => .error (.valueError "not in list")

/-- A run of `n` spaces. -/
def spaces (n : Nat) : String := String.mk (List.replicate n ' ')

/-- Python format `f-string` left justification `{s:<w}`. -/
def ljust (s : String) (w : Nat) : String := s ++ spaces (w - s.length)

/-- Python format centering `{s:^w}` (extra space goes to the right). -/
def cjust (s : String) (w : Nat) : String :=
  let p := w - s.length
  spaces (p / 2) ++ s ++ spaces (p - p / 2)

/-- Python `s.strip()`: removes leading and trailing whitespace. -/
def pyStrip (s : String) : String :=
  String.mk (((s.data.dropWhile Char.isWhitespace).reverse.dropWhile
    Char.isWhitespace).reverse)

/-- Modelled from the spec: `stringify` from `tables/utils.py` (that file is
absent from the sources): maps each element to its textual form with
leading/trailing whitespace stripped.  Cells are already text in this
embedding, so the textual form is the string itself. -/
def stringify (seq : List String) : List String := seq.map pyStrip

/-- Modelled from the spec: `strict_zip` from `tables/utils.py` (that file is
absent from the sources): element-wise transpose, failing with a
`LengthMismatch` error when the sequences are not all of equal length. -/
def strictZip (rows : List (List String)) : Except PyErr (List (List String)) :=
  match rows with
  | [] => .ok []
  | r :: rs =>
    if rs.all (fun s => s.length = r.length) then .ok (List.transpose (r :: rs))
    else .error .lengthMismatch

/-- The `Table` state: the slots `columns`, `_labels`, `centered`, `padding`,
`style` of `tables/table.py` (the rebuild-cache slots `_needs_rebuild` and
`_as_string` are not modelled; rendering is the pure `buildTable`). -/
structure Table where
  columns : List (List String)
  labels : Option (List String)
  centered : Bool
  padding : Nat
  style : String
  deriving Repr, DecidableEq

instance : Inhabited Table := ⟨⟨[], none, false, 1, "light"⟩⟩

/-- Python truthiness of `self.labels`: `True` iff labels is a nonempty list. -/
def labelsTruthy (t : Table) : Bool :=
  match t.labels with
  | some (_ :: _) => true
  | _ => false

/-- The `labels` property setter: stringifies and checks the count against
the column count. -/
def setLabels (t : Table) (nl : Option (List String)) : Except PyErr Table :=
  match nl with
  | none => .ok { t with labels := none }
  | some ls =>
    let ls2 := stringify ls
    if ls2.length = t.columns.length then .ok { t with labels := some ls2 }
    else .error (.valueError "labels inconsistent with number of columns")

/-- `Table.__init__`: transpose the rows via `strict_zip`, stringify each
column, then run the labels setter. -/
def mkTable (rows : List (List String)) (labels0 : Option (List String))
    (centered : Bool) (padding : Nat) (style : String) : Except PyErr Table := do
  let cols ← strictZip rows
  setLabels { columns := cols.map stringify, labels := none,
              centered := centered, padding := padding, style := style } labels0

/-- The eleven glyphs of one entry of `Table.STYLES`. -/
structure StyleChars where
  v : Char
  h : Char
  tl : Char
  tm : Char
  tr : Char
  ml : Char
  x : Char
  mr : Char
  bl : Char
  bm : Char
  br : Char
  deriving Repr, DecidableEq

/-- `Table.STYLES`: lookup raises `KeyError` (modelled by `none`) for an
unknown style name. -/
def STYLES (name : String) : Option StyleChars :=
  if name = "light" then some ⟨'│', '─', '┌', '┬', '┐', '├', '┼', '┤', '└', '┴', '┘'⟩
  else if name = "heavy" then some ⟨'┃', '━', '┏', '┳', '┓', '┣', '╋', '┫', '┗', '┻', '┛'⟩
  else if name = "curved" then some ⟨'│', '─', '╭', '┬', '╮', '├', '┼', '┤', '╰', '┴', '╯'⟩
  else if name = "ascii" then some ⟨'|', '-', '+', '+', '+', '+', '+', '+', '+', '+', '+'⟩
  else if name = "double" then some ⟨'║', '═', '╔', '╦', '╗', '╠', '╬', '╣', '╚', '╩', '╝'⟩
  else if name = "double-vertical" then
    some ⟨'║', '─', '╓', '╥', '╖', '╟', '╫', '╢', '╙', '╨', '╜'⟩
  else if name = "double-horizontal" then
    some ⟨'│', '═', '╒', '╤', '╕', '╞', '╪', '╡', '╘', '╧', '╛'⟩
  else none

/-- Cell padding per the `centered` flag. -/
def padCell (centered : Bool) (w : Nat) (s : String) : String :=
  if centered then cjust s w else ljust s w

/-- A character repeated `n` times (Python `c * n`). -/
def repChar (c : Char) (n : Nat) : String := String.mk (List.replicate n c)

/-- `Table._build_table`: the rendering algorithm.  Zero columns render as
empty text; `max` over an empty column raises `ValueError`; the label row is
prepended only when labels are truthy (nonempty). -/
def buildTable (t : Table) : Except PyErr String :=
  if t.columns.isEmpty then .ok ""
  else do
    let table ←
      if labelsTruthy t then
        let ls := t.labels.getD []
        if ls.length = t.columns.length then
          pure (List.zipWith (fun l c => l :: c) ls t.columns)
        else Except.error PyErr.lengthMismatch
      else
        pure t.columns
    if table.any (fun c => c.isEmpty) then
      Except.error (PyErr.valueError "max arg is an empty sequence")
    else do
      let padded := table.map (fun c =>
        let w := (c.map String.length).foldl max 0
        c.map (padCell t.centered w))
      let rows ← strictZip padded
      match STYLES t.style with
      | none => Except.error PyErr.keyError
      | some st =>
        let pad := spaces t.padding
        let horizontals := (rows.headD []).map
          (fun item => repChar st.h (item.length + 2 * t.padding))
        let body := rows.map (fun row =>
          String.singleton st.v ++ pad ++
          String.intercalate (pad ++ String.singleton st.v ++ pad) row ++
          pad ++ String.singleton st.v)
        let top := String.singleton st.tl ++
          String.intercalate (String.singleton st.tm) horizontals ++ String.singleton st.tr
        let rows2 := top :: body
        let rows3 :=
          if labelsTruthy t then
            let title := String.singleton st.ml ++
              String.intercalate (String.singleton st.x) horizontals ++ String.singleton st.mr
            pyInsert rows2 2 title
          else rows2
        let bottom := String.singleton st.bl ++
          String.intercalate (String.singleton st.bm) horizontals ++ String.singleton st.br
        pure (String.intercalate "\n" (rows3 ++ [bottom]))

/-- Result of a mutating call: on failure the table state at the moment the
exception was raised is recorded (Python exceptions do not roll back the
mutations already performed). -/
inductive MutResult where
  | ok : Table → MutResult
  | err : PyErr → Table → MutResult
  deriving Repr, DecidableEq

/-- The tail of `Table.add_column` (lines 144-145): `if label is not None:
self.labels.insert(index, str(label).strip())` — `AttributeError` when
labels is `None`, raised after the column was already inserted. -/
def attachLabel (t1 : Table) (idx : Int) (label : Option String) : MutResult :=
  match label with
  | none => .ok t1
  | some L =>
    match t1.labels with
    | none => .err .attributeError t1
    | some ls => .ok { t1 with labels := some (pyInsert ls idx (pyStrip L)) }

/-- `Table.add_column`: validations, then `columns.insert`, then the label
insertion `attachLabel`. -/
def addColumn (t : Table) (column : Option (List String)) (index : Option Int)
    (label : Option String) (dflt : Option String) : MutResult :=
  if column = none ∧ dflt = none then
    .err (.valueError "need column data or a default value") t
  else if t.labels ≠ none ∧ label = none then
    .err (.valueError "label is required") t
  else
    let idx : Int := index.getD t.columns.length
    match column with
    | some c =>
      let cs := stringify c
      if t.columns ≠ [] ∧ cs.length ≠ (t.columns.headD []).length then
        .err (.valueError "column length mismatch") t
      else attachLabel { t with columns := pyInsert t.columns idx cs } idx label
    | none =>
      if t.columns.isEmpty then
        attachLabel { t with columns := t.columns ++ [[]] } idx label
      else
        let filler := List.replicate (t.columns.headD []).length (pyStrip (dflt.getD ""))
        attachLabel { t with columns := pyInsert t.columns idx filler } idx label

/-- `Table.add_row`: on an empty table the row defines the columns (with a
warning); otherwise the row length must match the column count and one cell
is inserted into every column at the same position. -/
def addRow (t : Table) (row : List String) (index : Option Int) : MutResult :=
  let rs := stringify row
  if t.columns.isEmpty then
    .ok { t with columns := rs.map (fun item => [item]) }
  else if rs.length ≠ t.columns.length then
    .err (.valueError "row length mismatch") t
  else
    let idx : Int := index.getD (t.columns.headD []).length
    .ok { t with columns := List.zipWith (fun c item => pyInsert c idx item) t.columns rs }

/-- The key resolution of `Table.remove_column`: `if isinstance(index,
str): index = self.labels.index(index)` — `AttributeError` when labels is
`None`, `ValueError` when the label is absent. -/
def resolveColKey (t : Table) (key : Sum Int String) : Except PyErr Int :=
  match key with
  | .inl i => .ok i
  | .inr s =>
    match t.labels with
    | none => .error .attributeError
    | some ls =>
      match listIndex ls s with
      | .ok n => .ok (n : Int)
      | .error e => .error e

/-- The tail of `Table.remove_column`: `if self.labels:
self.labels.pop(index)`. -/
def popLabel (t1 : Table) (idx : Int) : MutResult :=
  if labelsTruthy t1 then
    match pyPop (t1.labels.getD []) idx with
    | .error e => .err e t1
    | .ok (_, ls2) => .ok { t1 with labels := some ls2 }
  else .ok t1

/-- `Table.remove_column`: resolve the key, pop the column, then pop the
label when labels are truthy. -/
def removeColumn (t : Table) (key : Sum Int String) : MutResult :=
  match resolveColKey t key with
  | .error e => .err e t
  | .ok idx =>
    match pyPop t.columns idx with
    | .error e => .err e t
    | .ok (_, cols2) => popLabel { t with columns := cols2 } idx

/-- The loop of `Table.remove_row`: `column.pop(index)` on each column in
order; on the first failure the columns already popped stay popped. -/
def popRows (cols : List (List String)) (i : Int) :
    Except (List (List String)) (List (List String)) :=
  match cols with
  | [] => .ok []
  | c :: cs =>
    match pyPop c i with
    | .error _ => .error (c :: cs)
    | .ok (_, c2) =>
      match popRows cs i with
      | .ok cs2 => .ok (c2 :: cs2)
      | .error cs2 => .error (c2 :: cs2)

/-- `Table.remove_row`. -/
def removeRow (t : Table) (i : Int) : MutResult :=
  match popRows t.columns i with
  | .ok cols2 => .ok { t with columns := cols2 }
  | .error cols2 => .err .indexError { t with columns := cols2 }

/-- `Table.relabel`: `AttributeError` when labels is `None`; the new label
is stored raw (no stringify on this path). -/
def relabel (t : Table) (old new : String) : MutResult :=
  match t.labels with
  | none => .err .attributeError t
  | some ls =>
    match listIndex ls old with
    | .error e => .err e t
    | .ok i => .ok { t with labels := some (ls.set i new) }

/-- One component of a tuple key: Ellipsis, an integer, a string, or a list
of integers. -/
inductive KComp where
  | ell : KComp
  | ci : Int → KComp
  | cs : String → KComp
  | cl : List Int → KComp
  deriving Repr, DecidableEq

/-- An indexing key as passed to `__getitem__`/`__setitem__`: a bare
integer, a bare string, a (homogeneous) list of integers or of strings, or
a tuple of components. -/
inductive Key where
  | kint : Int → Key
  | kstr : String → Key
  | klistI : List Int → Key
  | klistS : List String → Key
  | ktup : List KComp → Key
  deriving Repr, DecidableEq

/-- Python `len(key)`: ints have no `len` (`TypeError`). -/
def keyLen (k : Key) : Except PyErr Nat :=
  match k with
  | .kint _ => .error (.typeError "object of type int has no len")
  | .kstr s => .ok s.length
  | .klistI l => .ok l.length
  | .klistS l => .ok l.length
  | .ktup l => .ok l.length

/-- Python `key[i]`: subscripting an int raises `TypeError`; indexing a
string yields a one-character string. -/
def keyElem (k : Key) (i : Nat) : Except PyErr KComp :=
  match k with
  | .kint _ => .error (.typeError "int object is not subscriptable")
  | .kstr s =>
    match s.data[i]? with
    | some c => .ok (.cs (String.singleton c))
    | none => .error .indexError
  | .klistI l =>
    match l[i]? with
    | some n => .ok (.ci n)
    | none => .error .indexError
  | .klistS l =>
    match l[i]? with
    | some x => .ok (.cs x)
    | none => .error .indexError
  | .ktup l =>
    match l[i]? with
    | some c => .ok c
    | none => .error .indexError

/-- Whether a key component is a Python int. -/
def isInt : KComp → Bool
  | .ci _ => true
  | _ => false

/-- The (short-circuiting) guard of `Table.__setitem__`, exactly as written
in the source: `not isinstance(key, tuple) and len(key) != 2 and not
isinstance(key[0], int) and not isinstance(key[1], int)`. -/
def setGuard (k : Key) : Except PyErr Bool :=
  match k with
  | .ktup _ => .ok false
  | _ => do
    let n ← keyLen k
    if n = 2 then pure false
    else do
      let e0 ← keyElem k 0
      if isInt e0 then pure false
      else do
        let e1 ← keyElem k 1
        if isInt e1 then pure false else pure true

/-- Python `row, col = key`: unpacking into exactly two targets; a string
unpacks into its characters, an int is not iterable. -/
def unpack2 (k : Key) : Except PyErr (KComp × KComp) :=
  match k with
  | .kint _ => .error (.typeError "cannot unpack non-iterable int object")
  | .kstr s =>
    match s.data with
    | [a, b] => .ok (.cs (String.singleton a), .cs (String.singleton b))
    | _ => .error (.valueError "unpack")
  | .klistI l =>
    match l with
    | [a, b] => .ok (.ci a, .ci b)
    | _ => .error (.valueError "unpack")
  | .klistS l =>
    match l with
    | [a, b] => .ok (.cs a, .cs b)
    | _ => .error (.valueError "unpack")
  | .ktup l =>
    match l with
    | [a, b] => .ok (a, b)
    | _ => .error (.valueError "unpack")

/-- `Table.__setitem__`: the (buggy, `and`-chained) guard, then
`row, col = key`, then `self.columns[col][row] = str(item).strip()`. -/
def setItem (t : Table) (k : Key) (item : String) : MutResult :=
  match setGuard k with
  | .error e => .err e t
  | .ok true => .err (.valueError "invalid key") t
  | .ok false =>
    match unpack2 k with
    | .error e => .err e t
    | .ok (row, col) =>
      match col with
      | .ci c =>
        match pyIdx t.columns.length c with
        | none => .err .indexError t
        | some cn =>
          let colList := t.columns.getD cn []
          match row with
          | .ci r =>
            match pySetList colList r (pyStrip item) with
            | .error e => .err e t
            | .ok col2 => .ok { t with columns := t.columns.set cn col2 }
          | _ => .err (.typeError "list indices must be integers") t
      | _ => .err (.typeError "list indices must be integers") t

/-- Result of `Table.__getitem__`: a cell, a row, a column, or a derived
table. -/
inductive GetResult where
  | cell : String → GetResult
  | row : List String → GetResult
  | col : List String → GetResult
  | tab : Table → GetResult
  deriving Repr, DecidableEq

/-- The `(all, list-of-ints)` branch of `__getitem__`: `self.copy()` then
`table.columns = [self.columns[i] for i in cols]` and, when labels are
truthy, `table.labels = [self.labels[i] for i in cols]` (through the labels
setter). -/
def selectCols (t : Table) (l : List Int) : Except PyErr Table := do
  let cols2 ← l.mapM (pyGet t.columns)
  let t2 := { t with columns := cols2 }
  if labelsTruthy t then do
    let ls := t.labels.getD []
    let ls2 ← l.mapM (pyGet ls)
    setLabels t2 (some ls2)
  else
    pure t2

/-- The `(list-of-ints, all)` branch of `__getitem__`: gather the selected
rows and construct a fresh table through `Table.__init__`. -/
def selectRows (t : Table) (l : List Int) : Except PyErr Table := do
  let rows ← l.mapM (fun r => t.columns.mapM (fun c => pyGet c r))
  mkTable rows t.labels t.centered t.padding t.style

/-- The dispatch on the resolved `(rows, cols)` pair in `__getitem__`:
every combination not handled by the source falls through to
`ValueError("invalid key")`. -/
def resolvePair (t : Table) (rows cols : KComp) : Except PyErr GetResult :=
  match rows, cols with
  | .ell, .ci c => (pyGet t.columns c).map GetResult.col
  | .ell, .cl l => (selectCols t l).map GetResult.tab
  | .ci r, .ell => (t.columns.mapM (fun c => pyGet c r)).map GetResult.row
  | .ci r, .ci c => do
    let colL ← pyGet t.columns c
    let x ← pyGet colL r
    pure (GetResult.cell x)
  | .cl l, .ell => (selectRows t l).map GetResult.tab
  | _, _ => .error (.valueError "invalid key")

/-- `Table.__getitem__`: the key-rewriting phase (bare list/string/int keys
become `(rows, cols)` pairs), then the dispatch `resolvePair`. -/
def getItem (t : Table) (k : Key) : Except PyErr GetResult := do
  let pair ←
    match k with
    | .klistI l =>
      match l with
      | [] => Except.error PyErr.indexError
      | _ => pure (KComp.cl l, KComp.ell)
    | .klistS l =>
      match l with
      | [] => Except.error PyErr.indexError
      | _ =>
        if labelsTruthy t then do
          let idxs ← l.mapM (fun s =>
            (listIndex (t.labels.getD []) s).map (fun n => (n : Int)))
          pure (KComp.ell, KComp.cl idxs)
        else Except.error (PyErr.valueError "table has no labels")
    | .kstr s =>
      if labelsTruthy t then do
        let n ← listIndex (t.labels.getD []) s
        pure (KComp.ell, KComp.ci (n : Int))
      else Except.error (PyErr.valueError "table has no labels")
    | .kint i => pure (KComp.ci i, KComp.ell)
    | .ktup l =>
      match l with
      | [a, b] => pure (a, b)
      | _ => Except.error (PyErr.valueError "unpack")
  resolvePair t pair.1 pair.2

/-- `Table.__repr__`: reads `len(self.columns[0])`, so a zero-column table
raises `IndexError`. -/
def reprT (t : Table) : Except PyErr String :=
  match t.columns with
  | [] => .error .indexError
  | c :: _ =>
    .ok ("Table[" ++ toString c.length ++ ", " ++ toString t.columns.length ++
      "](labels=" ++ (if labelsTruthy t then "True" else "False") ++
      ", centered=" ++ (if t.centered then "True" else "False") ++
      ", padding=" ++ toString t.padding ++ ", style='" ++ t.style ++ "')")

/-!
Heap model.  Python columns are mutable list objects; a derived table from
column selection stores the same list objects.  To express this aliasing,
`HTable` holds references (indices) into an explicit heap of column
contents; the operations below mirror the same source lines as the pure
model, with list objects made explicit.
-/

/-- A heap of column objects; a reference is an index into it. -/
abbrev Heap := List (List String)

/-- `Table` state with the `columns` slot holding references to column
objects on the heap. -/
structure HTable where
  cols : List Nat
  labels : Option (List String)
  centered : Bool
  padding : Nat
  style : String
  deriving Repr, DecidableEq

/-- Dereference a table's columns against the heap. -/
def resolve (h : Heap) (t : HTable) : List (List String) :=
  t.cols.map (fun r => h.getD r [])

/-- Well-formedness: every column reference points into the heap. -/
def wfH (h : Heap) (t : HTable) : Prop :=
  ∀ r ∈ t.cols, r < h.length

instance (h : Heap) (t : HTable) : Decidable (wfH h t) := by
  unfold wfH; infer_instance

/-- Render a heap table: dereference, then run `Table._build_table`. -/
def renderH (h : Heap) (t : HTable) : Except PyErr String :=
  buildTable ⟨resolve h t, t.labels, t.centered, t.padding, t.style⟩

/-- `Table.__init__` in the heap model: fresh column objects are allocated
at the end of the heap. -/
def mkTableH (h : Heap) (rows : List (List String)) (labels0 : Option (List String))
    (centered : Bool) (padding : Nat) (style : String) :
    Except PyErr (Heap × HTable) := do
  let t ← mkTable rows labels0 centered padding style
  pure (h ++ t.columns,
    ⟨List.range' h.length t.columns.length 1, t.labels, t.centered, t.padding, t.style⟩)

/-- The `(all, list-of-ints)` branch of `__getitem__` in the heap model:
`table.columns = [self.columns[i] for i in cols]` copies the REFERENCES, so
the derived table shares column objects with the source; the heap is
unchanged. -/
def selectColsH (h : Heap) (t : HTable) (l : List Int) : Except PyErr HTable := do
  let refs ← l.mapM (pyGet t.cols)
  let t2 := { t with cols := refs }
  if labelsTruthy ⟨[], t.labels, t.centered, t.padding, t.style⟩ then do
    let ls := t.labels.getD []
    let ls2 ← l.mapM (pyGet ls)
    let ls3 := stringify ls2
    if ls3.length = t2.cols.length then pure { t2 with labels := some ls3 }
    else Except.error (PyErr.valueError "labels inconsistent with number of columns")
  else
    pure t2

/-- The `(list-of-ints, all)` branch of `__getitem__` in the heap model:
the constructor allocates fresh column objects. -/
def selectRowsH (h : Heap) (t : HTable) (l : List Int) :
    Except PyErr (Heap × HTable) := do
  let rows ← l.mapM (fun r => (resolve h t).mapM (fun c => pyGet c r))
  mkTableH h rows t.labels t.centered t.padding t.style

/-- `Table.__setitem__` on a resolved in-range `(row, col)` pair in the
heap model: the write goes through the column reference, mutating the heap. -/
def setCellH (h : Heap) (t : HTable) (r c : Int) (v : String) :
    Except PyErr Heap := do
  let ref ← pyGet t.cols c
  let col2 ← pySetList (h.getD ref []) r (pyStrip v)
  pure (h.set ref col2)

/-- The loop of `Table.add_row` in the heap model: insert one cell into
each referenced column object at the same position. -/
def insertRow (h : Heap) (refs : List Nat) (rs : List String) (idx : Int) : Heap :=
  (refs.zip rs).foldl (fun acc p => acc.set p.1 (pyInsert (acc.getD p.1 []) idx p.2)) h

/-- `Table.add_row` in the heap model (nonzero-column case mutates the
referenced column objects in place; the zero-column case allocates fresh
objects). -/
def addRowH (h : Heap) (t : HTable) (row : List String) (index : Option Int) :
    Except PyErr (Heap × HTable) :=
  if t.cols.isEmpty then
    .ok (h ++ (stringify row).map (fun item => [item]),
      { t with cols := List.range' h.length (stringify row).length 1 })
  else if (stringify row).length ≠ t.cols.length then
    .error (.valueError "row length mismatch")
  else
    .ok (insertRow h t.cols (stringify row)
      (index.getD (h.getD (t.cols.headD 0) []).length), t)

/-- The loop of `Table.remove_row` in the heap model: pop the indexed cell
from each referenced column object in order. -/
def popRefs (i : Int) : List Nat → Heap → Except PyErr Heap
  | [], acc => .ok acc
  | r :: rest, acc =>
    match pyPop (acc.getD r []) i with
    | .error e => .error e
    | .ok (_, c2) => popRefs i rest (acc.set r c2)

/-- `Table.remove_row` in the heap model. -/
def removeRowH (h : Heap) (t : HTable) (i : Int) : Except PyErr (Heap × HTable) :=
  match popRefs i t.cols h with
  | .ok h2 => .ok (h2, t)
  | .error _ => .error .indexError

/-- One mutation on a heap table, among the in-place mutations named by the
independence property: cell assignment, `add_row`, `remove_row`. -/
inductive HMut where
  | setCell : Int → Int → String → HMut
  | addR : List String → Option Int → HMut
  | rmRow : Int → HMut
  deriving Repr, DecidableEq

/-- Apply one heap mutation (cell assignment keeps the same table value;
only the heap changes). -/
def applyHMut (m : HMut) (h : Heap) (t : HTable) : Except PyErr (Heap × HTable) :=
  match m with
  | .setCell r c v => (setCellH h t r c v).map (fun h2 => (h2, t))
  | .addR row i => addRowH h t row i
  | .rmRow i => removeRowH h t i

/-- One mutating call of the pure model. -/
inductive Op where
  | addCol : Option (List String) → Option Int → Option String → Option String → Op
  | addR : List String → Option Int → Op
  | rmCol : Sum Int String → Op
  | rmRow : Int → Op
  | relabelC : String → String → Op
  | setCell : Key → String → Op
  deriving Repr, DecidableEq

/-- Dispatch one mutating call. -/
def applyOp (op : Op) (t : Table) : MutResult :=
  match op with
  | .addCol c i l d => addColumn t c i l d
  | .addR r i => addRow t r i
  | .rmCol k => removeColumn t k
  | .rmRow i => removeRow t i
  | .relabelC o n => relabel t o n
  | .setCell k v => setItem t k v

/-- Run a sequence of mutating calls, requiring every call to succeed. -/
def runOps (t : Table) : List Op → Option Table
  | [] => some t
  | op :: ops =>
    match applyOp op t with
    | .ok t2 => runOps t2 ops
    | .err _ _ => none

/-- All columns have equal length (row count). -/
def eqLen (cols : List (List String)) : Prop :=
  ∀ c ∈ cols, c.length = (cols.headD []).length

instance (cols : List (List String)) : Decidable (eqLen cols) := by
  unfold eqLen; infer_instance

/-- The shape invariant claimed by the spec (P1/I1/I2): columns of equal
length and, when labels is not none, as many labels as columns. -/
def shapeInv (t : Table) : Prop :=
  eqLen t.columns ∧
  (t.labels ≠ none → (t.labels.getD []).length = t.columns.length)

instance (t : Table) : Decidable (shapeInv t) := by
  unfold shapeInv; infer_instance

/-- Scenario A rows. -/
def rowsA : List (List String) :=
  [["John Smith", "356 Grove Rd", "123-4567"],
   ["Mary Sue", "311 Penny Lane", "555-2451"]]

/-- Scenario A labels. -/
def labelsA : List String := ["Name", "Address", "Phone Number"]

/-- The Scenario A table, as built by the constructor. -/
def tA : Table :=
  (mkTable rowsA (some labelsA) false 1 "light").toOption.getD default

/-!
Helper lemmas about the Python list primitives.
-/

theorem pyIdx_lt {n : Nat} {i : Int} {m : Nat} (h : pyIdx n i = some m) : m < n := by
  unfold pyIdx at h
  split at h
  · rename_i hc
    injection h with h2
    omega
  · exact absurd h (by simp)

theorem pyIdx_coe (n i : Nat) (h : i < n) : pyIdx n (i : Int) = some i := by
  unfold pyIdx pyNorm
  rw [if_neg (by omega : ¬((i : Int) < 0))]
  rw [if_pos (by omega : 0 ≤ (i : Int) ∧ (i : Int) < n)]
  simp

theorem pyGet_coe {α : Type} (l : List α) (i : Nat) (h : i < l.length) :
    pyGet l (i : Int) = .ok (l.get ⟨i, h⟩) := by
  unfold pyGet
  rw [pyIdx_coe l.length i h]
  simp [List.getElem?_eq_getElem h]

theorem pySetList_coe {α : Type} (l : List α) (i : Nat) (x : α) (h : i < l.length) :
    pySetList l (i : Int) x = .ok (l.set i x) := by
  unfold pySetList
  rw [pyIdx_coe l.length i h]

theorem pyGet_mem {α : Type} {l : List α} {i : Int} {a : α}
    (h : pyGet l i = .ok a) : a ∈ l := by
  unfold pyGet at h
  split at h
  · split at h
    · rename_i hg
      injection h with h2
      subst h2
      exact List.getElem?_mem hg
    · exact absurd h (by simp)
  · exact absurd h (by simp)

theorem pyInsert_length {α : Type} (l : List α) (i : Int) (x : α) :
    (pyInsert l i x).length = l.length + 1 := by
  unfold pyInsert
  simp only [List.length_append, List.length_take, List.length_cons, List.length_drop]
  omega

theorem pyInsert_mem {α : Type} {l : List α} {i : Int} {x c : α}
    (h : c ∈ pyInsert l i x) : c = x ∨ c ∈ l := by
  unfold pyInsert at h
  rcases List.mem_append.mp h with h1 | h2
  · exact Or.inr (List.take_subset _ _ h1)
  · rcases List.mem_cons.mp h2 with h3 | h4
    · exact Or.inl h3
    · exact Or.inr (List.drop_subset _ _ h4)

theorem pyPop_ok {α : Type} {l : List α} {i : Int} {a : α} {l2 : List α}
    (h : pyPop l i = .ok (a, l2)) :
    ∃ n, pyIdx l.length i = some n ∧ n < l.length ∧ l2 = l.eraseIdx n := by
  unfold pyPop at h
  split at h
  · rename_i n hn
    split at h
    · injection h with h2
      have hsnd := congrArg Prod.snd h2
      exact ⟨n, hn, pyIdx_lt hn, hsnd.symm⟩
    · exact absurd h (by simp)
  · exact absurd h (by simp)

theorem pyPop_length {α : Type} {l : List α} {i : Int} {a : α} {l2 : List α}
    (h : pyPop l i = .ok (a, l2)) : l2.length + 1 = l.length := by
  obtain ⟨n, _, hlt, hl2⟩ := pyPop_ok h
  rw [hl2, List.length_eraseIdx_of_lt hlt]
  omega

theorem pyPop_subset {α : Type} {l : List α} {i : Int} {a : α} {l2 : List α}
    (h : pyPop l i = .ok (a, l2)) : l2 ⊆ l := by
  obtain ⟨n, _, _, hl2⟩ := pyPop_ok h
  rw [hl2]
  exact List.eraseIdx_subset _ _

theorem pySetList_ok {α : Type} {l : List α} {i : Int} {x : α} {l2 : List α}
    (h : pySetList l i x = .ok l2) : l2.length = l.length := by
  unfold pySetList at h
  split at h
  · injection h with h2
    rw [← h2, List.length_set]
  · exact absurd h (by simp)

theorem pyPop_nil {α : Type} (i : Int) :
    pyPop ([] : List α) i = .error .indexError := by
  unfold pyPop pyIdx pyNorm
  simp only [List.length_nil, Nat.cast_zero]
  rw [if_neg (by split <;> omega)]

theorem getItem_pair (t : Table) (a b : KComp) :
    getItem t (.ktup [a, b]) = resolvePair t a b := rfl

theorem exceptBind_ok {ε α β : Type} (a : α) (f : α → Except ε β) :
    (Except.ok a >>= f) = f a := rfl

theorem exceptBind_err {ε α β : Type} (e : ε) (f : α → Except ε β) :
    ((Except.error e : Except ε α) >>= f) = Except.error e := rfl

theorem resolvePair_cell (t : Table) (r c : Int) :
    resolvePair t (.ci r) (.ci c) =
      match pyGet t.columns c with
      | .error e => .error e
      | .ok colL =>
        match pyGet colL r with
        | .error e => .error e
        | .ok x => .ok (.cell x) := by
  unfold resolvePair
  dsimp only
  cases hg : pyGet t.columns c with
  | error e => rfl
  | ok colL =>
    rw [exceptBind_ok]
    dsimp only
    cases hg2 : pyGet colL r with
    | error e => rfl
    | ok x => rfl

theorem eqLen_iff (cols : List (List String)) :
    eqLen cols ↔ ∃ n, ∀ c ∈ cols, c.length = n := by
  constructor
  · intro h
    exact ⟨(cols.headD []).length, h⟩
  · rintro ⟨n, h⟩ c hc
    rw [h c hc]
    cases cols with
    | nil => cases hc
    | cons d ds => rw [List.headD_cons, h d (List.mem_cons_self d ds)]

theorem eqLen_pyInsert {cols : List (List String)} {idx : Int} {x : List String}
    (h : eqLen cols) (hx : cols = [] ∨ x.length = (cols.headD []).length) :
    eqLen (pyInsert cols idx x) := by
  rcases hx with hnil | hlen
  · subst hnil
    rw [eqLen_iff]
    refine ⟨x.length, fun c hc => ?_⟩
    rcases pyInsert_mem hc with h1 | h2
    · rw [h1]
    · cases h2
  · rw [eqLen_iff]
    refine ⟨(cols.headD []).length, fun c hc => ?_⟩
    rcases pyInsert_mem hc with h1 | h2
    · rw [h1, hlen]
    · exact h c h2

theorem eqLen_zipWith_insert {n : Nat} {idx : Int} :
    ∀ {cols : List (List String)} {rs : List String},
      (∀ c ∈ cols, c.length = n) →
      ∀ c2 ∈ List.zipWith (fun c item => pyInsert c idx item) cols rs,
        c2.length = n + 1 := by
  intro cols
  induction cols with
  | nil => intro rs h c2 hc2; simp at hc2
  | cons c cs ih =>
    intro rs h c2 hc2
    cases rs with
    | nil => simp at hc2
    | cons r rrs =>
      rw [List.zipWith_cons_cons] at hc2
      rcases List.mem_cons.mp hc2 with h1 | h2
      · rw [h1, pyInsert_length, h c (List.mem_cons_self _ _)]
      · exact ih (fun d hd => h d (List.mem_cons_of_mem _ hd)) c2 h2

theorem attachLabel_ok {t1 t2 : Table} {idx : Int} {lab : Option String}
    (hok : attachLabel t1 idx lab = .ok t2) :
    (lab = none ∧ t2 = t1) ∨
    (∃ L ls, lab = some L ∧ t1.labels = some ls ∧
      t2 = { t1 with labels := some (pyInsert ls idx (pyStrip L)) }) := by
  unfold attachLabel at hok
  cases lab with
  | none =>
    injection hok with h
    exact Or.inl ⟨rfl, h.symm⟩
  | some L =>
    cases hl : t1.labels with
    | none => rw [hl] at hok; exact absurd hok (by simp)
    | some ls =>
      rw [hl] at hok
      injection hok with h
      exact Or.inr ⟨L, ls, rfl, rfl, h.symm⟩

theorem popLabel_ok {t1 t2 : Table} {idx : Int}
    (hok : popLabel t1 idx = .ok t2) :
    (labelsTruthy t1 = false ∧ t2 = t1) ∨
    (labelsTruthy t1 = true ∧ ∃ a ls2,
      pyPop (t1.labels.getD []) idx = .ok (a, ls2) ∧
      t2 = { t1 with labels := some ls2 }) := by
  unfold popLabel at hok
  cases htr : labelsTruthy t1 with
  | false =>
    rw [htr] at hok
    simp only [Bool.false_eq_true, if_false] at hok
    injection hok with h
    exact Or.inl ⟨rfl, h.symm⟩
  | true =>
    rw [htr] at hok
    simp only [if_true] at hok
    split at hok
    · exact absurd hok (by simp)
    · rename_i a ls2 hp
      injection hok with h
      exact Or.inr ⟨rfl, a, ls2, hp, h.symm⟩

theorem addColumn_inv {t t2 : Table} {col : Option (List String)}
    {idx0 : Option Int} {lab dflt : Option String} (hinv : shapeInv t)
    (hok : addColumn t col idx0 lab dflt = .ok t2) : shapeInv t2 := by
  unfold addColumn at hok
  split at hok
  · exact absurd hok (by simp)
  split at hok
  · exact absurd hok (by simp)
  rename_i hreq hlab
  have step : ∀ cols2 : List (List String), eqLen cols2 →
      cols2.length = t.columns.length + 1 →
      attachLabel { t with columns := cols2 } (idx0.getD t.columns.length) lab = .ok t2 →
      shapeInv t2 := by
    intro cols2 heq hlen hat
    rcases attachLabel_ok hat with ⟨hnone, ht2⟩ | ⟨L, ls, hL, hls, ht2⟩
    · have hlnone : t.labels = none := by
        by_contra hne
        exact hlab ⟨hne, hnone⟩
      subst ht2
      exact ⟨heq, fun h => absurd hlnone (by simpa using h)⟩
    · subst ht2
      refine ⟨heq, fun _ => ?_⟩
      have hls2 : t.labels = some ls := hls
      have hcount : ls.length = t.columns.length := by
        have := hinv.2 (by simp [hls2])
        rw [hls2, Option.getD_some] at this
        exact this
      simp only [Option.getD_some, pyInsert_length, hlen, hcount]
  split at hok
  · rename_i c
    dsimp only at hok
    split at hok
    · exact absurd hok (by simp)
    · rename_i hguard
      refine step _ ?_ ?_ hok
      · refine eqLen_pyInsert hinv.1 ?_
        by_cases hc : t.columns = []
        · exact Or.inl hc
        · refine Or.inr ?_
          by_contra hne
          exact hguard ⟨hc, hne⟩
      · exact pyInsert_length _ _ _
  · dsimp only at hok
    split at hok
    · rename_i hemp
      have hnil : t.columns = [] := List.isEmpty_iff.mp hemp
      refine step _ ?_ ?_ hok
      · rw [hnil]
        rw [eqLen_iff]
        exact ⟨0, by intro c hc; simp at hc; simp [hc]⟩
      · simp [hnil]
    · refine step _ ?_ ?_ hok
      · exact eqLen_pyInsert hinv.1 (Or.inr (by simp))
      · exact pyInsert_length _ _ _

theorem addRow_inv {t t2 : Table} {row : List String} {idx0 : Option Int}
    (hinv : shapeInv t) (hside : t.columns ≠ [] ∨ t.labels = none)
    (hok : addRow t row idx0 = .ok t2) : shapeInv t2 := by
  unfold addRow at hok
  split at hok
  · rename_i hemp
    have hnil : t.columns = [] := List.isEmpty_iff.mp hemp
    have hlnone : t.labels = none := by
      rcases hside with h | h
      · exact absurd hnil h
      · exact h
    injection hok with h
    subst h
    constructor
    · rw [eqLen_iff]
      refine ⟨1, fun c hc => ?_⟩
      simp only [List.mem_map] at hc
      obtain ⟨a, _, ha⟩ := hc
      rw [← ha]
      rfl
    · intro h
      exact absurd hlnone (by simpa using h)
  · dsimp only at hok
    split at hok
    · exact absurd hok (by simp)
    · rename_i hemp hlen
      injection hok with h
      subst h
      have hlen2 : (stringify row).length = t.columns.length := by
        by_contra hne
        exact hlen hne
      constructor
      · rw [eqLen_iff]
        refine ⟨(t.columns.headD []).length + 1, ?_⟩
        exact eqLen_zipWith_insert hinv.1
      · intro h
        have := hinv.2 h
        simpa [List.length_zipWith, hlen2] using this

theorem addRow_eqLen {t t2 : Table} {row : List String} {idx0 : Option Int}
    (heq : eqLen t.columns) (hok : addRow t row idx0 = .ok t2) :
    eqLen t2.columns := by
  unfold addRow at hok
  split at hok
  · injection hok with h
    subst h
    rw [eqLen_iff]
    refine ⟨1, fun c hc => ?_⟩
    simp only [List.mem_map] at hc
    obtain ⟨a, _, ha⟩ := hc
    rw [← ha]
    rfl
  · dsimp only at hok
    split at hok
    · exact absurd hok (by simp)
    · injection hok with h
      subst h
      rw [eqLen_iff]
      exact ⟨(t.columns.headD []).length + 1, eqLen_zipWith_insert heq⟩

theorem removeColumn_inv {t t2 : Table} {key : Sum Int String}
    (hinv : shapeInv t) (hok : removeColumn t key = .ok t2) : shapeInv t2 := by
  unfold removeColumn at hok
  split at hok
  · exact absurd hok (by simp)
  rename_i idx hidx
  split at hok
  · exact absurd hok (by simp)
  rename_i a cols2 hpop
  have heq2 : eqLen cols2 := by
    rw [eqLen_iff]
    exact ⟨(t.columns.headD []).length, fun c hc => hinv.1 c (pyPop_subset hpop hc)⟩
  have hclen : cols2.length + 1 = t.columns.length := pyPop_length hpop
  rcases popLabel_ok hok with ⟨hfal, ht2⟩ | ⟨htru, a2, ls2, hp2, ht2⟩
  · subst ht2
    refine ⟨heq2, fun h => ?_⟩
    match hl : t.labels, h with
    | some ls, _ =>
      unfold labelsTruthy at hfal
      rw [hl] at hfal
      match ls, hfal with
      | [], _ =>
        have h0 : t.columns.length = 0 := by
          have := hinv.2 (by simp [hl])
          rw [hl] at this
          simpa using this.symm
        have hnil : t.columns = [] := List.length_eq_zero.mp h0
        rw [hnil, pyPop_nil] at hpop
        exact absurd hpop (by simp)
  · subst ht2
    refine ⟨heq2, fun _ => ?_⟩
    match hl : t.labels, htru with
    | some ls, _ =>
      have hcount : ls.length = t.columns.length := by
        have := hinv.2 (by simp [hl])
        simpa [hl] using this
      rw [hl] at hp2
      have := pyPop_length hp2
      simp only [Option.getD_some] at this
      simp only [Option.getD_some]
      omega

theorem popRows_lens {i : Int} {n : Nat} :
    ∀ {cols cols2 : List (List String)},
      (∀ c ∈ cols, c.length = n) → popRows cols i = .ok cols2 →
      cols2.length = cols.length ∧ ∀ c2 ∈ cols2, c2.length + 1 = n := by
  intro cols
  induction cols with
  | nil =>
    intro cols2 hall h
    unfold popRows at h
    injection h with h2
    subst h2
    exact ⟨rfl, by intro c2 hc2; cases hc2⟩
  | cons c cs ih =>
    intro cols2 hall h
    unfold popRows at h
    split at h
    · exact absurd h (by simp)
    rename_i a c2 hpopc
    split at h
    · rename_i cs2 hrec
      injection h with h2
      subst h2
      obtain ⟨hl, hmem⟩ := ih (fun d hd => hall d (List.mem_cons_of_mem _ hd)) hrec
      refine ⟨by simp [hl], fun d hd => ?_⟩
      rcases List.mem_cons.mp hd with h3 | h4
      · rw [h3]
        rw [pyPop_length hpopc, hall c (List.mem_cons_self _ _)]
      · exact hmem d h4
    · exact absurd h (by simp)

theorem removeRow_inv {t t2 : Table} {i : Int}
    (hinv : shapeInv t) (hok : removeRow t i = .ok t2) : shapeInv t2 := by
  unfold removeRow at hok
  split at hok
  · rename_i cols2 hrec
    injection hok with h
    subst h
    obtain ⟨hl, hmem⟩ := popRows_lens hinv.1 hrec
    constructor
    · rw [eqLen_iff]
      exact ⟨(t.columns.headD []).length - 1, fun c2 hc2 => by
        have := hmem c2 hc2
        omega⟩
    · intro h
      have := hinv.2 (by simpa using h)
      simpa [hl] using this
  · exact absurd hok (by simp)

theorem relabel_inv {t t2 : Table} {old new : String}
    (hinv : shapeInv t) (hok : relabel t old new = .ok t2) : shapeInv t2 := by
  unfold relabel at hok
  split at hok
  · exact absurd hok (by simp)
  rename_i ls hls
  split at hok
  · exact absurd hok (by simp)
  · rename_i j hj
    injection hok with h
    subst h
    refine ⟨hinv.1, fun _ => ?_⟩
    have := hinv.2 (by simp [hls])
    simpa [hls, List.length_set] using this

theorem setItem_inv {t t2 : Table} {k : Key} {v : String}
    (hinv : shapeInv t) (hok : setItem t k v = .ok t2) : shapeInv t2 := by
  unfold setItem at hok
  split at hok
  · exact absurd hok (by simp)
  · exact absurd hok (by simp)
  split at hok
  · exact absurd hok (by simp)
  rename_i rw0 cl0 hunp
  split at hok
  · rename_i ci0
    split at hok
    · exact absurd hok (by simp)
    rename_i cn hcn
    dsimp only at hok
    split at hok
    · rename_i r0
      split at hok
      · exact absurd hok (by simp)
      rename_i col2 hset
      injection hok with h
      subst h
      have hcnlt : cn < t.columns.length := pyIdx_lt hcn
      have hmemcn : t.columns.getD cn [] ∈ t.columns := by
        rw [List.getD_eq_getElem?_getD, List.getElem?_eq_getElem hcnlt,
          Option.getD_some]
        exact List.getElem_mem hcnlt
      constructor
      · rw [eqLen_iff]
        refine ⟨(t.columns.headD []).length, fun c hc => ?_⟩
        rcases List.mem_or_eq_of_mem_set hc with h1 | h2
        · exact hinv.1 c h1
        · rw [h2, pySetList_ok hset]
          exact hinv.1 _ hmemcn
      · intro h
        have := hinv.2 (by simpa using h)
        simpa [List.length_set] using this
    · exact absurd hok (by simp)
  · exact absurd hok (by simp)

theorem getD_set_ne (l : Heap) (n q : Nat) (x : List String) (h : q ≠ n) :
    (l.set n x).getD q [] = l.getD q [] := by
  rw [List.getD_eq_getElem?_getD, List.getD_eq_getElem?_getD,
    List.getElem?_set_ne (fun he => h he.symm)]

theorem getD_append_left (l m : Heap) (q : Nat) (h : q < l.length) :
    (l ++ m).getD q [] = l.getD q [] := by
  rw [List.getD_eq_getElem?_getD, List.getD_eq_getElem?_getD,
    List.getElem?_append_left h]

theorem mkTableH_shape {h h1 : Heap} {rows : List (List String)}
    {labels0 : Option (List String)} {cen : Bool} {pad : Nat} {sty : String}
    {d : HTable} (hok : mkTableH h rows labels0 cen pad sty = .ok (h1, d)) :
    ∃ t3 : Table, mkTable rows labels0 cen pad sty = .ok t3 ∧
      h1 = h ++ t3.columns ∧ d.cols = List.range' h.length t3.columns.length 1 := by
  unfold mkTableH at hok
  cases hmk : mkTable rows labels0 cen pad sty with
  | error e =>
    rw [hmk, exceptBind_err] at hok
    exact absurd hok (by simp)
  | ok t3 =>
    rw [hmk, exceptBind_ok] at hok
    injection hok with h2
    rw [Prod.mk.injEq] at h2
    obtain ⟨hh, hd⟩ := h2
    exact ⟨t3, rfl, hh.symm, by rw [← hd]⟩

theorem selectRowsH_shape {h h1 : Heap} {t : HTable} {sel : List Int}
    {d : HTable} (hok : selectRowsH h t sel = .ok (h1, d)) :
    ∃ cols3 : List (List String),
      h1 = h ++ cols3 ∧ d.cols = List.range' h.length cols3.length 1 := by
  unfold selectRowsH at hok
  cases hrows : sel.mapM (fun r => (resolve h t).mapM (fun c => pyGet c r)) with
  | error e =>
    rw [hrows, exceptBind_err] at hok
    exact absurd hok (by simp)
  | ok rows =>
    rw [hrows, exceptBind_ok] at hok
    obtain ⟨t3, _, hh1, hcols⟩ := mkTableH_shape hok
    exact ⟨t3.columns, hh1, hcols⟩

theorem setCellH_preserve {h1 h2 : Heap} {d : HTable} {r c : Int} {v : String}
    (hok : setCellH h1 d r c v = .ok h2) :
    ∀ q, q ∉ d.cols → h2.getD q [] = h1.getD q [] := by
  unfold setCellH at hok
  cases hr : pyGet d.cols c with
  | error e =>
    rw [hr, exceptBind_err] at hok
    exact absurd hok (by simp)
  | ok ref =>
    rw [hr, exceptBind_ok] at hok
    cases hs : pySetList (h1.getD ref []) r (pyStrip v) with
    | error e =>
      rw [hs, exceptBind_err] at hok
      exact absurd hok (by simp)
    | ok col2 =>
      rw [hs, exceptBind_ok] at hok
      injection hok with h3
      intro q hq
      rw [← h3]
      exact getD_set_ne _ _ _ _ (fun he => hq (he ▸ pyGet_mem hr))

theorem foldl_insert_preserve {idx : Int} {bound : Nat} :
    ∀ (ps : List (Nat × String)) (acc : Heap),
      (∀ p ∈ ps, bound ≤ p.1) →
      ∀ q, q < bound →
        (ps.foldl (fun acc2 p =>
          acc2.set p.1 (pyInsert (acc2.getD p.1 []) idx p.2)) acc).getD q []
          = acc.getD q [] := by
  intro ps
  induction ps with
  | nil => intro acc hb q hq; rfl
  | cons p rest ih =>
    intro acc hb q hq
    rw [List.foldl_cons]
    rw [ih _ (fun p2 hp2 => hb p2 (List.mem_cons_of_mem _ hp2)) q hq]
    exact getD_set_ne _ _ _ _
      (by have := hb p (List.mem_cons_self _ _); omega)

theorem insertRow_preserve {h1 : Heap} {refs : List Nat} {rs : List String}
    {idx : Int} {bound : Nat} (hbd : ∀ r ∈ refs, bound ≤ r) :
    ∀ q, q < bound → (insertRow h1 refs rs idx).getD q [] = h1.getD q [] := by
  intro q hq
  unfold insertRow
  exact foldl_insert_preserve _ _ (fun p hp => hbd p.1 (List.of_mem_zip hp).1) q hq

theorem addRowH_preserve {h1 h2 : Heap} {d d2 : HTable} {row : List String}
    {idx0 : Option Int} (hok : addRowH h1 d row idx0 = .ok (h2, d2))
    (bound : Nat) (hbd : ∀ r ∈ d.cols, bound ≤ r) (hlen : bound ≤ h1.length) :
    ∀ q, q < bound → h2.getD q [] = h1.getD q [] := by
  unfold addRowH at hok
  split at hok
  · injection hok with h3
    rw [Prod.mk.injEq] at h3
    obtain ⟨hh, _⟩ := h3
    intro q hq
    rw [← hh]
    exact getD_append_left _ _ _ (by omega)
  · split at hok
    · exact absurd hok (by simp)
    · injection hok with h3
      rw [Prod.mk.injEq] at h3
      obtain ⟨hh, _⟩ := h3
      intro q hq
      rw [← hh]
      exact insertRow_preserve hbd q hq

theorem popRefs_preserve {i : Int} {bound : Nat} :
    ∀ (rs : List Nat) (acc h2 : Heap),
      (∀ r ∈ rs, bound ≤ r) → popRefs i rs acc = .ok h2 →
      ∀ q, q < bound → h2.getD q [] = acc.getD q [] := by
  intro rs
  induction rs with
  | nil =>
    intro acc h2 hb hok q hq
    injection hok with h3
    rw [h3]
  | cons r rest ih =>
    intro acc h2 hb hok q hq
    unfold popRefs at hok
    split at hok
    · exact absurd hok (by simp)
    · rename_i a c2 hp
      rw [ih _ h2 (fun x hx => hb x (List.mem_cons_of_mem _ hx)) hok q hq]
      exact getD_set_ne _ _ _ _
        (by have := hb r (List.mem_cons_self _ _); omega)

theorem removeRowH_preserve {h1 h2 : Heap} {d d2 : HTable} {i : Int}
    (hok : removeRowH h1 d i = .ok (h2, d2))
    (bound : Nat) (hbd : ∀ r ∈ d.cols, bound ≤ r) :
    ∀ q, q < bound → h2.getD q [] = h1.getD q [] := by
  unfold removeRowH at hok
  split at hok
  · rename_i h3 hp
    injection hok with h4
    rw [Prod.mk.injEq] at h4
    obtain ⟨hh, _⟩ := h4
    intro q hq
    rw [← hh]
    exact popRefs_preserve d.cols h1 h3 hbd hp q hq
  · exact absurd hok (by simp)

/-!
Theorems settling the claims.
-/

/-- C8, amended: from a state satisfying the shape invariant, every
successful mutation leaves all columns of equal length (unconditionally);
and the full shape invariant — including the label-count equality when
labels is not none — is preserved by every successful mutation except
`add_row` on a zero-column table whose labels is the reachable empty label
list, where the row defines new columns while the empty label list is left
in place. -/
theorem c8_amended (op : Op) (t t2 : Table) (hinv : shapeInv t)
    (hok : applyOp op t = .ok t2) :
    eqLen t2.columns ∧
    ((∀ row i, op = Op.addR row i → t.columns ≠ [] ∨ t.labels = none) →
      shapeInv t2) := by
  constructor
  · cases op with
    | addCol c i l d => exact (addColumn_inv hinv hok).1
    | addR r i => exact addRow_eqLen hinv.1 hok
    | rmCol k => exact (removeColumn_inv hinv hok).1
    | rmRow i => exact (removeRow_inv hinv hok).1
    | relabelC o n => exact (relabel_inv hinv hok).1
    | setCell k v => exact (setItem_inv hinv hok).1
  · intro hside
    cases op with
    | addCol c i l d => exact addColumn_inv hinv hok
    | addR r i => exact addRow_inv hinv (hside r i rfl) hok
    | rmCol k => exact removeColumn_inv hinv hok
    | rmRow i => exact removeRow_inv hinv hok
    | relabelC o n => exact relabel_inv hinv hok
    | setCell k v => exact setItem_inv hinv hok

/-- Witness for C8 amended: an `add_row` on the excepted zero-column,
empty-labels state still leaves all columns of equal length (first
conjunct, no side condition), and removing the "Address" column from the
Scenario A table preserves the full shape invariant (second conjunct). -/
theorem c8_amended_witness :
    eqLen ([["a"], ["b"]] : List (List String)) ∧
    shapeInv ⟨[["John Smith", "Mary Sue"], ["123-4567", "555-2451"]],
      some ["Name", "Phone Number"], false, 1, "light"⟩ :=
  ⟨(c8_amended (.addR ["a", "b"] none) ⟨[], some [], false, 1, "light"⟩
      ⟨[["a"], ["b"]], some [], false, 1, "light"⟩ (by decide) rfl).1,
   (c8_amended (.rmCol (.inr "Address")) tA
      ⟨[["John Smith", "Mary Sue"], ["123-4567", "555-2451"]],
        some ["Name", "Phone Number"], false, 1, "light"⟩ (by decide) rfl).2
     (by intro row i h; exact Op.noConfusion h)⟩

/-- C9: the Scenario A table (rows `rowsA`, labels `labelsA`, style
"light", padding 1, centered false) renders exactly the example box, with
columns sized to the widest cell including the label, a label-separator row
beneath the header, light box-drawing glyphs, and no trailing line break
after the final border line. -/
theorem c9_scenarioA :
    mkTable rowsA (some labelsA) false 1 "light" = .ok tA ∧
    buildTable tA = .ok
      "┌────────────┬────────────────┬──────────────┐\n│ Name       │ Address        │ Phone Number │\n├────────────┼────────────────┼──────────────┤\n│ John Smith │ 356 Grove Rd   │ 123-4567     │\n│ Mary Sue   │ 311 Penny Lane │ 555-2451     │\n└────────────┴────────────────┴──────────────┘" :=
  ⟨rfl, rfl⟩

/-- C2, counterexample: constructing a `Table` from zero row sequences with
labels `["A","B"]` does not succeed — the labels setter raises `ValueError`
because the label count (2) differs from the column count (0); moreover,
rendering a table with zero rows but nonzero columns and no labels raises
`ValueError` (`max` over an empty column), so it is not well-formed. -/
theorem c2_counterexample :
    mkTable [] (some ["A", "B"]) false 1 "light"
      = .error (.valueError "labels inconsistent with number of columns") ∧
    buildTable ⟨[[], []], none, false, 1, "light"⟩
      = .error (.valueError "max arg is an empty sequence") :=
  ⟨rfl, rfl⟩

/-- C2, amended: constructing from zero rows together with labels
`["A","B"]` fails with a label-count-mismatch `ValueError`; rendering a
table with zero columns yields empty text; rendering a table with zero
rows but nonzero columns is well-formed (header-only) when labels are
present, and raises `ValueError` when labels are absent. -/
theorem c2_amended :
    (∀ t : Table, t.columns = [] → buildTable t = .ok "") ∧
    mkTable [] (some ["A", "B"]) false 1 "light"
      = .error (.valueError "labels inconsistent with number of columns") ∧
    buildTable ⟨[[], []], some ["A", "B"], false, 1, "light"⟩
      = .ok "┌───┬───┐\n│ A │ B │\n├───┼───┤\n└───┴───┘" ∧
    buildTable ⟨[[], []], none, false, 1, "light"⟩
      = .error (.valueError "max arg is an empty sequence") := by
  refine ⟨?_, rfl, rfl, rfl⟩
  intro t h
  unfold buildTable
  rw [h]
  rfl

/-- Witness for C2 amended: the empty-columns branch evaluated at a
concrete table. -/
theorem c2_amended_witness :
    buildTable ⟨[], some ["x"], true, 3, "heavy"⟩ = .ok "" :=
  c2_amended.1 ⟨[], some ["x"], true, 3, "heavy"⟩ rfl

/-- C3, code bug: on a table with no labels, `add_column` with a supplied
`label` emits the "label ignored" warning but then executes
`self.labels.insert` on `None`, raising `AttributeError` — after the column
was already inserted.  The claim (and the warning's own text) says the
label is ignored and the call succeeds. -/
theorem c3_bug_eval :
    addColumn ⟨[["a"]], none, false, 1, "light"⟩ (some ["x"]) none (some "L") none
      = .err .attributeError ⟨[["a"], ["x"]], none, false, 1, "light"⟩ :=
  rfl

/-- C4, code bug: mutating calls are not atomic — `add_column` with a
`label` on an unlabeled table raises `AttributeError` while leaving the
column it already inserted in place, so the observable state after the
failed call differs from the state before it. -/
theorem c4_bug_eval :
    addColumn ⟨[["r"], ["s"]], none, false, 2, "heavy"⟩ (some ["u"]) none (some "Lbl") none
      = .err .attributeError ⟨[["r"], ["s"], ["u"]], none, false, 2, "heavy"⟩ ∧
    (⟨[["r"], ["s"], ["u"]], none, false, 2, "heavy"⟩ : Table)
      ≠ ⟨[["r"], ["s"]], none, false, 2, "heavy"⟩ :=
  ⟨rfl, by decide⟩

/-- C6, code bug: the `__setitem__` validation chains its four conditions
with `and` instead of `or`, so almost no invalid key shape reaches the
`InvalidKey` error: a two-element list key passes the guard and performs
the cell write, and a bare integer key raises `TypeError` from `len(key)`
instead of `InvalidKey`. -/
theorem c6_bug_eval :
    setItem ⟨[["p", "q"], ["r", "s"]], none, false, 1, "light"⟩ (.klistI [0, 1]) "v"
      = .ok ⟨[["p", "q"], ["v", "s"]], none, false, 1, "light"⟩ ∧
    setItem ⟨[["p", "q"], ["r", "s"]], none, false, 1, "light"⟩ (.kint 0) "v"
      = .err (.typeError "object of type int has no len")
          ⟨[["p", "q"], ["r", "s"]], none, false, 1, "light"⟩ :=
  ⟨rfl, rfl⟩

/-- C5, counterexample: on the Scenario A table, indexing by the bare label
`"Name"` (at position 0) returns the first column, while indexing by the
bare integer `0` returns the first row — a bare integer key selects a row,
not a column, so the two results differ. -/
theorem c5_counterexample :
    getItem tA (.kstr "Name") = .ok (.col ["John Smith", "Mary Sue"]) ∧
    getItem tA (.kint 0) = .ok (.row ["John Smith", "356 Grove Rd", "123-4567"]) ∧
    getItem tA (.kstr "Name") ≠ getItem tA (.kint 0) :=
  ⟨rfl, rfl, by decide⟩

/-- C5, amended: for every table with labels, indexing by the bare label
`L` whose first position in the label sequence is `i` yields the same
result as indexing by the pair key `(all, i)` — the column at position
`i`.  (A bare integer key instead selects a row.) -/
theorem c5_amended (t : Table) (ls : List String) (L : String) (i : Nat)
    (hls : t.labels = some ls) (hidx : listIndex ls L = .ok i) :
    getItem t (.kstr L) = getItem t (.ktup [.ell, .ci (i : Int)]) := by
  have hne : ls ≠ [] := by
    intro hnil
    rw [hnil] at hidx
    simp [listIndex] at hidx
  have htr : labelsTruthy t = true := by
    unfold labelsTruthy
    rw [hls]
    match ls, hne with
    | a :: as, _ => rfl
  unfold getItem
  dsimp only
  rw [if_pos htr, hls]
  dsimp only [Option.getD_some]
  rw [hidx]
  rfl

/-- Witness for C5 amended: on the Scenario A table, `t["Address"]` equals
`t[..., 1]`. -/
theorem c5_amended_witness :
    getItem tA (.kstr "Address") = getItem tA (.ktup [.ell, .ci (1 : Nat)]) :=
  c5_amended tA ["Name", "Address", "Phone Number"] "Address" 1 (by decide) (by decide)

/-- C7: for every table and every in-range position `(row, col)` and cell
value `v`, the cell write at `(row, col)` succeeds and reading the cell
back through the `(int, int)` key returns `stringify([v])[0]`, the
whitespace-stripped textual form of `v`. -/
theorem c7_roundtrip (t : Table) (r c : Nat) (v : String)
    (hc : c < t.columns.length) (hr : r < (t.columns.getD c []).length) :
    ∃ t2 : Table,
      setItem t (.ktup [.ci (r : Int), .ci (c : Int)]) v = .ok t2 ∧
      getItem t2 (.ktup [.ci (r : Int), .ci (c : Int)])
        = .ok (.cell ((stringify [v]).getD 0 "")) := by
  refine ⟨⟨t.columns.set c ((t.columns.getD c []).set r (pyStrip v)),
    t.labels, t.centered, t.padding, t.style⟩, ?_, ?_⟩
  · unfold setItem
    dsimp only [setGuard, unpack2]
    rw [pyIdx_coe _ _ hc]
    dsimp only
    rw [pySetList_coe _ _ _ hr]
  · have hc2 : c < (t.columns.set c ((t.columns.getD c []).set r (pyStrip v))).length := by
      rw [List.length_set]; exact hc
    have hr2 : r < ((t.columns.getD c []).set r (pyStrip v)).length := by
      rw [List.length_set]; exact hr
    rw [getItem_pair, resolvePair_cell]
    rw [show (⟨t.columns.set c ((t.columns.getD c []).set r (pyStrip v)), t.labels,
        t.centered, t.padding, t.style⟩ : Table).columns
        = t.columns.set c ((t.columns.getD c []).set r (pyStrip v)) from rfl]
    rw [pyGet_coe _ c hc2]
    dsimp only
    rw [show (t.columns.set c ((t.columns.getD c []).set r (pyStrip v))).get ⟨c, hc2⟩
        = (t.columns.getD c []).set r (pyStrip v) from List.getElem_set_self hc2]
    rw [pyGet_coe _ r hr2]
    dsimp only
    rw [show ((t.columns.getD c []).set r (pyStrip v)).get ⟨r, hr2⟩
        = pyStrip v from List.getElem_set_self hr2]
    rfl

/-- Witness for C7: write then read at row 0, column 1 of the Scenario A
table with a value carrying surrounding whitespace. -/
theorem c7_roundtrip_witness :
    ∃ t2 : Table,
      setItem tA (.ktup [.ci ((0 : Nat) : Int), .ci ((1 : Nat) : Int)]) " v " = .ok t2 ∧
      getItem t2 (.ktup [.ci ((0 : Nat) : Int), .ci ((1 : Nat) : Int)])
        = .ok (.cell ((stringify [" v "]).getD 0 "")) :=
  c7_roundtrip tA 0 1 " v " (by decide) (by decide)

/-- C8, counterexample: the spec's shape invariant is not preserved by
every sequence of successful mutations.  Starting from
`Table(["x"], labels=["A"])`, `remove_column(0)` leaves `labels == []` with
zero columns; then `add_row(["a","b"])` succeeds (first-row-defines-shape)
and leaves two columns but the empty, non-none label list: label count 0
differs from column count 2. -/
theorem c8_counterexample :
    mkTable [["x"]] (some ["A"]) false 1 "light"
      = .ok ⟨[["x"]], some ["A"], false, 1, "light"⟩ ∧
    removeColumn ⟨[["x"]], some ["A"], false, 1, "light"⟩ (.inl 0)
      = .ok ⟨[], some [], false, 1, "light"⟩ ∧
    addRow ⟨[], some [], false, 1, "light"⟩ ["a", "b"] none
      = .ok ⟨[["a"], ["b"]], some [], false, 1, "light"⟩ ∧
    ¬ shapeInv ⟨[["a"], ["b"]], some [], false, 1, "light"⟩ :=
  ⟨rfl, rfl, rfl, by decide⟩

/-- C1, counterexample: a derived table from column selection does NOT own
an independent copy of the column data.  In the heap model: build
`T = Table(["a"])`, derive `D = T[..., [0]]` (same column reference 0),
write cell `(0,0)` of `D`; the heap cell shared with `T` changes, and `T`'s
rendered text changes from the "a" box to the "z" box. -/
theorem c1_counterexample :
    mkTableH [] [["a"]] none false 1 "light"
      = .ok ([["a"]], ⟨[0], none, false, 1, "light"⟩) ∧
    selectColsH [["a"]] ⟨[0], none, false, 1, "light"⟩ [0]
      = .ok ⟨[0], none, false, 1, "light"⟩ ∧
    setCellH [["a"]] ⟨[0], none, false, 1, "light"⟩ 0 0 "z" = .ok [["z"]] ∧
    renderH [["z"]] ⟨[0], none, false, 1, "light"⟩
      ≠ renderH [["a"]] ⟨[0], none, false, 1, "light"⟩ :=
  ⟨rfl, rfl, rfl, by decide⟩

/-- C1, amended: a derived table obtained by ROW selection owns an
independent copy — its column objects are freshly allocated — so mutating
it (cell assignment, `add_row`, or `remove_row`) never changes the source
table's resolved columns or its rendered text.  (Column-selection derived
tables alias the source's column data; see the counterexample.) -/
theorem c1_amended (h : Heap) (t : HTable) (sel : List Int) (h1 : Heap)
    (d : HTable) (m : HMut) (h2 : Heap) (d2 : HTable)
    (hwf : wfH h t)
    (hrow : selectRowsH h t sel = .ok (h1, d))
    (hmut : applyHMut m h1 d = .ok (h2, d2)) :
    resolve h2 t = resolve h t ∧ renderH h2 t = renderH h t := by
  obtain ⟨cols3, hh1, hcols⟩ := selectRowsH_shape hrow
  have hge : ∀ r ∈ d.cols, h.length ≤ r := by
    intro r hr
    rw [hcols, List.mem_range'] at hr
    obtain ⟨i, _, hi⟩ := hr
    omega
  have hpre : ∀ q, q < h.length → h2.getD q [] = h1.getD q [] := by
    cases m with
    | setCell r c v =>
      unfold applyHMut at hmut
      dsimp only at hmut
      cases hs : setCellH h1 d r c v with
      | error e =>
        rw [hs] at hmut
        exact absurd hmut (by simp [Except.map])
      | ok h2x =>
        rw [hs] at hmut
        injection hmut with h3
        rw [Prod.mk.injEq] at h3
        obtain ⟨hh2, _⟩ := h3
        intro q hq
        rw [← hh2]
        exact setCellH_preserve hs q (fun hmem => by have := hge q hmem; omega)
    | addR row i =>
      unfold applyHMut at hmut
      dsimp only at hmut
      exact addRowH_preserve hmut h.length hge
        (by rw [hh1, List.length_append]; omega)
    | rmRow i =>
      unfold applyHMut at hmut
      dsimp only at hmut
      exact removeRowH_preserve hmut h.length hge
  have happ : ∀ q, q < h.length → h1.getD q [] = h.getD q [] := by
    intro q hq
    rw [hh1]
    exact getD_append_left _ _ _ hq
  have hres : resolve h2 t = resolve h t := by
    unfold resolve
    apply List.map_congr_left
    intro r hr
    rw [hpre r (hwf r hr), happ r (hwf r hr)]
  exact ⟨hres, by unfold renderH; rw [hres]⟩

/-- Witness for C1 amended: a concrete table of two columns, a
row-selection derived table, and a cell write on the derived table that
leaves the source's columns and render unchanged. -/
theorem c1_amended_witness :
    resolve [["a"], ["b"], ["z"], ["b"]] ⟨[0, 1], none, false, 1, "light"⟩
      = resolve [["a"], ["b"]] ⟨[0, 1], none, false, 1, "light"⟩ ∧
    renderH [["a"], ["b"], ["z"], ["b"]] ⟨[0, 1], none, false, 1, "light"⟩
      = renderH [["a"], ["b"]] ⟨[0, 1], none, false, 1, "light"⟩ :=
  c1_amended [["a"], ["b"]] ⟨[0, 1], none, false, 1, "light"⟩ [0]
    [["a"], ["b"], ["a"], ["b"]] ⟨[2, 3], none, false, 1, "light"⟩
    (.setCell 0 0 "z") [["a"], ["b"], ["z"], ["b"]]
    ⟨[2, 3], none, false, 1, "light"⟩
    (by decide) rfl rfl

/-- C10: `__repr__` indexes `self.columns[0]` to report the row count, so
on a table with zero columns it raises `IndexError` rather than returning
a description string; it returns normally exactly when at least one column
exists. -/
theorem c10_repr (t : Table) :
    (t.columns = [] → reprT t = .error .indexError) ∧
    (t.columns ≠ [] → ∃ s, reprT t = .ok s) := by
  constructor
  · intro h
    unfold reprT
    rw [h]
  · intro h
    unfold reprT
    match hc : t.columns with
    | [] => exact absurd hc h
    | c :: rest => exact ⟨_, rfl⟩

/-- Witness for C10: the zero-column case and a one-column case, each
evaluated concretely. -/
theorem c10_repr_witness :
    reprT ⟨[], none, false, 1, "light"⟩ = .error .indexError ∧
    ∃ s, reprT ⟨[["a"]], none, false, 1, "light"⟩ = .ok s :=
  ⟨(c10_repr ⟨[], none, false, 1, "light"⟩).1 rfl,
   (c10_repr ⟨[["a"]], none, false, 1, "light"⟩).2 (by decide)⟩

end Tables
